import Mathlib

/-!
Verification of the gofhir/models codec runtime against its specification.

The repository ships a runtime data model for a clinical interchange
standard: a precision-preserving `Decimal` value type, a resource
registry resolving open polymorphism, and JSON/XML codecs.  The codec
implementations themselves are generated code not present in the
checked sources (only their tests and the generator scaffolding are),
so the definitions below are modelled from the specification text and
checked against the behaviour the unit tests pin down.  The r5 JSON
`Marshal` helper is present in source and is embedded directly.
-/

namespace GoFhir

/-! ## Decimal -/

/-- Modelled from the spec: the `Decimal` value type (implementation file
absent from the sources).  Wraps a normalized numeric magnitude — here a
scaled integer `num` with `scale` fractional digits — together with the
exact original digit text. -/
structure Decimal where
  num : Int
  scale : Nat
  text : String
deriving Repr, DecidableEq

/-- Modelled from the spec: the `InvalidDecimal` parse error, carrying the
offending input. -/
inductive DecimalError where
  | invalidDecimal (input : String)
deriving Repr, DecidableEq

/-- Digit list to natural number, most significant first. -/
def digitsToNat (ds : List Char) : Nat :=
  ds.foldl (fun acc c => 10 * acc + (c.toNat - 48)) 0

/-- Magnitude parser for `[0-9]+(\.[0-9]+)?`: returns the scaled numerator
and the number of fractional digits. -/
def parseMag (cs : List Char) : Option (Nat × Nat) :=
  match cs.splitOn '.' with
  | [ip] =>
      if !ip.isEmpty && ip.all Char.isDigit then some (digitsToNat ip, 0) else none
  | [ip, fp] =>
      if !ip.isEmpty && !fp.isEmpty && ip.all Char.isDigit && fp.all Char.isDigit then
        some (digitsToNat (ip ++ fp), fp.length)
      else none
  | _ => none

/-- The validity predicate of the spec: text matching `-?[0-9]+(\.[0-9]+)?`. -/
def magMatches (cs : List Char) : Bool :=
  match cs.splitOn '.' with
  | [ip] => !ip.isEmpty && ip.all Char.isDigit
  | [ip, fp] => !ip.isEmpty && !fp.isEmpty && ip.all Char.isDigit && fp.all Char.isDigit
  | _ => false

/-- Text matching the spec's decimal grammar `-?[0-9]+(\.[0-9]+)?`. -/
def matchesDecimalRegex (s : String) : Bool :=
  if s.data.head? = some '-' then magMatches s.data.tail else magMatches s.data

/-- Modelled from the spec: `NewDecimalFromString` — parse decimal text,
remembering the original digit sequence; rejects `NaN`, `Infinity`, empty
and non-numeric input with `InvalidDecimal`. -/
def NewDecimalFromString (s : String) : Except DecimalError Decimal :=
  if s.data.head? = some '-' then
    match parseMag s.data.tail with
    | some p => .ok ⟨-(p.1 : Int), p.2, s⟩
    | none => .error (.invalidDecimal s)
  else
    match parseMag s.data with
    | some p => .ok ⟨(p.1 : Int), p.2, s⟩
    | none => .error (.invalidDecimal s)

/-- Modelled from the spec: `render`/`String()` returns the exact original
textual form. -/
def Decimal.render (d : Decimal) : String := d.text

/-- Modelled from the spec: `MustDecimal` — as in the source tests, parses a
known-valid literal (the panic branch of the source is modelled by a zero
value, and is never exercised below on invalid input). -/
def MustDecimal (s : String) : Decimal :=
  match NewDecimalFromString s with
  | .ok d => d
  | .error _ => ⟨0, 0, ""⟩

/-- Modelled from the spec: numeric (not textual) equality, comparing the
scaled magnitudes cross-multiplied to a common scale. -/
def Decimal.Equal (a b : Decimal) : Bool :=
  a.num * (10 : Int) ^ b.scale == b.num * (10 : Int) ^ a.scale

/-- Modelled from the spec: `IsZero` on the numeric magnitude. -/
def Decimal.IsZero (d : Decimal) : Bool := d.num == 0

/-- The numeric value a `Decimal` denotes, as a rational. -/
def Decimal.val (d : Decimal) : ℚ := (d.num : ℚ) / (10 : ℚ) ^ d.scale

/-- Strip one matching pair of surrounding double quotes, as the JSON
decoder does for quoted number tokens. -/
def stripQuotes (s : String) : String :=
  match s.data with
  | '"' :: rest =>
      if rest.getLast? = some '"' then String.mk rest.dropLast else s
  | _ => s

/-- Modelled from the spec: `Decimal` JSON decoding — accepts a bare number
token or a quoted string, preserving the original digit text; the token
`null` yields the zero `Decimal` whose text is empty. -/
def Decimal.unmarshalJSON (raw : String) : Except DecimalError Decimal :=
  if raw = "null" then .ok ⟨0, 0, ""⟩
  else NewDecimalFromString (stripQuotes raw)

/-- Modelled from the spec: `Decimal` JSON encoding emits the preserved
digit text as a bare token. -/
def Decimal.marshalJSON (d : Decimal) : String := d.text

theorem parseMag_isSome_of_magMatches (cs : List Char) (h : magMatches cs = true) :
    ∃ p, parseMag cs = some p := by
  unfold magMatches at h
  unfold parseMag
  cases hs : cs.splitOn '.' with
  | nil => rw [hs] at h; exact absurd h (by simp)
  | cons a t =>
    cases t with
    | nil => rw [hs] at h; exact ⟨_, if_pos h⟩
    | cons b t2 =>
      cases t2 with
      | nil => rw [hs] at h; exact ⟨_, if_pos h⟩
      | cons c t3 => rw [hs] at h; exact absurd h (by simp)

/-- C1: for every valid decimal text `s` matching `-?[0-9]+(\.[0-9]+)?`,
parsing `s` into a `Decimal` and rendering it back returns exactly `s`,
preserving sign, trailing zeros and digit sequence. -/
theorem decimal_parse_render_roundtrip (s : String) (h : matchesDecimalRegex s = true) :
    (NewDecimalFromString s).map Decimal.render = .ok s := by
  unfold matchesDecimalRegex at h
  unfold NewDecimalFromString
  by_cases hd : s.data.head? = some '-'
  · rw [if_pos hd] at h ⊢
    obtain ⟨p, hp⟩ := parseMag_isSome_of_magMatches _ h
    rw [hp]; rfl
  · rw [if_neg hd] at h ⊢
    obtain ⟨p, hp⟩ := parseMag_isSome_of_magMatches _ h
    rw [hp]; rfl

/-- Witness for C1 at the spec's five example inputs. -/
theorem decimal_parse_render_roundtrip_witness :
    ((NewDecimalFromString "1.50").map Decimal.render = .ok "1.50") ∧
    ((NewDecimalFromString "100").map Decimal.render = .ok "100") ∧
    ((NewDecimalFromString "-3.14").map Decimal.render = .ok "-3.14") ∧
    ((NewDecimalFromString "0.001").map Decimal.render = .ok "0.001") ∧
    ((NewDecimalFromString "1234567890.123456").map Decimal.render
      = .ok "1234567890.123456") :=
  ⟨decimal_parse_render_roundtrip "1.50" (by decide),
   decimal_parse_render_roundtrip "100" (by decide),
   decimal_parse_render_roundtrip "-3.14" (by decide),
   decimal_parse_render_roundtrip "0.001" (by decide),
   decimal_parse_render_roundtrip "1234567890.123456" (by decide)⟩

/-- C8: decimal parse fails with `InvalidDecimal` on the empty string, on
non-digit content such as `abc`, and on the literal tokens `NaN` and
`Infinity`; none of these is silently coerced to a value. -/
theorem decimal_parse_rejects_invalid :
    NewDecimalFromString "" = .error (.invalidDecimal "") ∧
    NewDecimalFromString "abc" = .error (.invalidDecimal "abc") ∧
    NewDecimalFromString "NaN" = .error (.invalidDecimal "NaN") ∧
    NewDecimalFromString "Infinity" = .error (.invalidDecimal "Infinity") := by
  refine ⟨?_, ?_, ?_, ?_⟩ <;> rfl

/-- C9: decimal equality is numeric, not textual — `1.0` equals `1.00` and
`100` equals `100.0` although their preserved texts differ, `1.0` and `2.0`
are unequal, and in general `Equal` holds exactly when the denoted rational
values coincide. -/
theorem decimal_equality_is_numeric :
    ((MustDecimal "1.0").Equal (MustDecimal "1.00") = true) ∧
    ((MustDecimal "100").Equal (MustDecimal "100.0") = true) ∧
    ((MustDecimal "1.0").Equal (MustDecimal "2.0") = false) ∧
    ((MustDecimal "1.0").render ≠ (MustDecimal "1.00").render) ∧
    (∀ a b : Decimal, (a.Equal b = true ↔ a.val = b.val)) := by
  refine ⟨by decide, by decide, by decide, by decide, ?_⟩
  intro a b
  unfold Decimal.Equal Decimal.val
  rw [beq_iff_eq, div_eq_div_iff (by positivity) (by positivity)]
  constructor <;> intro h <;> exact_mod_cast h

/-- C10: decoding the JSON token `null` into a `Decimal` succeeds and yields
a zero-valued `Decimal` rendering as the empty string — unlike the empty
string input to parse, which is rejected. -/
theorem decimal_unmarshal_null_is_zero :
    Decimal.unmarshalJSON "null" = .ok ⟨0, 0, ""⟩ ∧
    Decimal.render ⟨0, 0, ""⟩ = "" ∧
    Decimal.IsZero ⟨0, 0, ""⟩ = true ∧
    NewDecimalFromString "" = .error (.invalidDecimal "") :=
  ⟨rfl, rfl, rfl, rfl⟩

/-! ## XML document model -/

/-- The XML output tree the encoder produces: elements with attributes and
children, plus raw (narrative) markup copied byte-for-byte. -/
inductive XmlNode where
  | elem (name : String) (attrs : List (String × String)) (children : List XmlNode)
  | raw (content : String)
deriving Repr

/-- Tag name of a node (raw markup has none). -/
def elemName : XmlNode → String
  | .elem n _ _ => n
  | .raw _ => ""

/-- Attribute rendering: ` key="value"` per attribute. -/
def renderAttrs : List (String × String) → String
  | [] => ""
  | a :: t => " " ++ a.1 ++ "=\"" ++ a.2 ++ "\"" ++ renderAttrs t

mutual

/-- Modelled from the spec: the XML writer's self-closing convention (the
writer itself is generated code absent from the sources) — an element with
no children renders as `<name attrs/>` with no explicit closing tag,
otherwise as `<name attrs>children</name>`; raw markup passes through. -/
def serializeXml : XmlNode → String
  | .raw s => s
  | .elem name attrs [] => "<" ++ name ++ renderAttrs attrs ++ "/>"
  | .elem name attrs (c :: cs) =>
      "<" ++ name ++ renderAttrs attrs ++ ">" ++ serializeXml c ++ serializeNodes cs
        ++ "</" ++ name ++ ">"

/-- Concatenated serialization of a child list. -/
def serializeNodes : List XmlNode → String
  | [] => ""
  | n :: ns => serializeXml n ++ serializeNodes ns

end

/-- Modelled from the spec: a URL-identified extension (with the string
variant of its value choice, the only one the tests exercise). -/
structure Extension where
  url : String
  valueString : Option String
deriving Repr, DecidableEq

/-- Modelled from the spec: the primitive extension companion — an element
id and/or extensions attached to one primitive field occurrence. -/
structure Element where
  id : Option String
  extension : List Extension
deriving Repr, DecidableEq

/-- Modelled from the spec: an extension renders as an `extension` element
whose url is an XML attribute, with its value choice as a child. -/
def encodeExtension (e : Extension) : XmlNode :=
  .elem "extension" [("url", e.url)]
    (match e.valueString with
     | some v => [.elem "valueString" [("value", v)] []]
     | none => [])

/-- Modelled from the spec: companion data rendered as children of the
primitive's element — an `<id .../>` child and/or `<extension>` children. -/
def companionChildren (e : Element) : List XmlNode :=
  (match e.id with
   | some i => [XmlNode.elem "id" [("value", i)] []]
   | none => []) ++ e.extension.map encodeExtension

/-- Modelled from the spec: a primitive field renders as an element with a
single `value` attribute; companion data, when present, renders as
children (making the element non-self-closing). -/
def xmlEncodePrimitive (name value : String) (companion : Option Element) : XmlNode :=
  match companion with
  | none => .elem name [("value", value)] []
  | some e => .elem name [("value", value)] (companionChildren e)

theorem companionChildren_ne_nil (e : Element) (h : e.id ≠ none ∨ e.extension ≠ []) :
    companionChildren e ≠ [] := by
  unfold companionChildren
  cases hid : e.id <;> cases hext : e.extension <;> simp_all

/-- C3: a primitive field with a value and no companion renders as the
self-closing `<name value="…"/>` with no explicit closing tag, while a
primitive carrying an id or extension companion renders non-self-closing,
as `<name value="…">…</name>` with the companion data inside. -/
theorem xml_primitive_selfclosing (name value : String) (e : Element)
    (h : e.id ≠ none ∨ e.extension ≠ []) :
    (serializeXml (xmlEncodePrimitive name value none)
       = "<" ++ name ++ " value=\"" ++ value ++ "\"/>") ∧
    (∃ inner, serializeXml (xmlEncodePrimitive name value (some e))
       = "<" ++ name ++ " value=\"" ++ value ++ "\">" ++ inner ++ "</" ++ name ++ ">") := by
  constructor
  · show (("<" ++ name ++ renderAttrs [("value", value)]) ++ "/>" : String) = _
    simp only [renderAttrs, String.append_assoc]
    rfl
  · obtain ⟨c, cs, hc⟩ := List.exists_cons_of_ne_nil (companionChildren_ne_nil e h)
    refine ⟨serializeXml c ++ serializeNodes cs, ?_⟩
    show serializeXml (.elem name [("value", value)] (companionChildren e)) = _
    rw [hc]
    show ("<" ++ name ++ renderAttrs [("value", value)] ++ ">" ++ serializeXml c
        ++ serializeNodes cs ++ "</" ++ name ++ ">" : String) = _
    simp only [renderAttrs, String.append_assoc]
    rfl

/-- Witness for C3 at the `birthDate` example of the source tests. -/
theorem xml_primitive_selfclosing_witness :
    ((⟨none, [⟨"http://example.org/ext", some "some-value"⟩]⟩ : Element).id ≠ none ∨
      (⟨none, [⟨"http://example.org/ext", some "some-value"⟩]⟩ : Element).extension ≠ []) ∧
    (serializeXml (xmlEncodePrimitive "birthDate" "1974-12-25" none)
       = "<birthDate value=\"1974-12-25\"/>") ∧
    (∃ inner, serializeXml (xmlEncodePrimitive "birthDate" "1974-12-25"
        (some ⟨none, [⟨"http://example.org/ext", some "some-value"⟩]⟩))
       = "<birthDate value=\"1974-12-25\">" ++ inner ++ "</birthDate>") := by
  have h := xml_primitive_selfclosing "birthDate" "1974-12-25"
    ⟨none, [⟨"http://example.org/ext", some "some-value"⟩]⟩ (by simp)
  obtain ⟨h1, inner, h2⟩ := h
  refine ⟨by simp, ?_, ⟨inner, ?_⟩⟩
  · rw [h1]; rfl
  · rw [h2]; simp only [String.append_assoc]; rfl

/-! ## Patient model and XML element order -/

/-- A name for a person, with the parts the tests exercise. -/
structure HumanName where
  family : Option String
  given : List String
deriving Repr, DecidableEq

/-- Modelled from the spec: the Patient fields exercised by the tests,
listed in the type catalog's canonical element order (id, active, name,
gender, birthDate, deceased[x]), with the primitive extension companion of
`birthDate`. -/
structure Patient where
  id : Option String
  active : Option Bool
  name : List HumanName
  gender : Option String
  birthDate : Option String
  birthDateExt : Option Element
  deceasedBoolean : Option Bool
deriving Repr, DecidableEq

/-- Absent optional primitives are omitted from the output entirely. -/
def optPrimStr (name : String) : Option String → List XmlNode
  | none => []
  | some v => [xmlEncodePrimitive name v none]

/-- Wire text of a boolean primitive. -/
def boolText (b : Bool) : String := if b then "true" else "false"

/-- Optional boolean primitive, omitted when absent. -/
def optPrimBool (name : String) : Option Bool → List XmlNode
  | none => []
  | some b => [xmlEncodePrimitive name (boolText b) none]

/-- Optional primitive with extension companion (the companion is attached
to the value's element; the value-absent case is omitted like any absent
field). -/
def optPrimStrExt (name : String) (v : Option String) (companion : Option Element) :
    List XmlNode :=
  match v with
  | none => []
  | some s => [xmlEncodePrimitive name s companion]

/-- Modelled from the spec: `HumanName` as a composite element, fields in
catalog order (family before given), repeated `given` one element per
item. -/
def encodeHumanName (n : HumanName) : XmlNode :=
  .elem "name" []
    (optPrimStr "family" n.family ++ n.given.map (fun g => xmlEncodePrimitive "given" g none))

/-- Modelled from the spec: the Patient encoder emits fields strictly in
catalog order. -/
def Patient.toXmlChildren (p : Patient) : List XmlNode :=
  optPrimStr "id" p.id ++ optPrimBool "active" p.active
    ++ p.name.map encodeHumanName
    ++ optPrimStr "gender" p.gender
    ++ optPrimStrExt "birthDate" p.birthDate p.birthDateExt
    ++ optPrimBool "deceasedBoolean" p.deceasedBoolean

/-- Position of the first child element carrying the given tag name. -/
def fieldPos (children : List XmlNode) (name : String) : Nat :=
  children.findIdx (fun c => elemName c == name)

theorem findIdx_append_none {α : Type} (p : α → Bool) (l1 l2 : List α)
    (h : ∀ x ∈ l1, p x = false) :
    (l1 ++ l2).findIdx p = l1.length + l2.findIdx p := by
  induction l1 with
  | nil => simp
  | cons a t ih =>
      have ha := h a (List.mem_cons_self a t)
      have ih2 := ih (fun x hx => h x (List.mem_cons_of_mem a hx))
      simp [List.findIdx_cons, ha, ih2]
      omega

theorem elemName_xmlEncodePrimitive (nm v : String) (comp : Option Element) :
    elemName (xmlEncodePrimitive nm v comp) = nm := by
  cases comp <;> rfl

theorem fieldPos_patient_shape (n1 n2 n3 n4 n5 : XmlNode) (mid tail : List XmlNode)
    (e1 : elemName n1 = "id") (e2 : elemName n2 = "active") (e3 : elemName n3 = "name")
    (e4 : elemName n4 = "gender") (e5 : elemName n5 = "birthDate")
    (hmid : ∀ x ∈ mid, elemName x = "name") :
    fieldPos (n1 :: n2 :: n3 :: (mid ++ n4 :: n5 :: tail)) "id" = 0 ∧
    fieldPos (n1 :: n2 :: n3 :: (mid ++ n4 :: n5 :: tail)) "active" = 1 ∧
    fieldPos (n1 :: n2 :: n3 :: (mid ++ n4 :: n5 :: tail)) "name" = 2 ∧
    fieldPos (n1 :: n2 :: n3 :: (mid ++ n4 :: n5 :: tail)) "gender" = 3 + mid.length ∧
    fieldPos (n1 :: n2 :: n3 :: (mid ++ n4 :: n5 :: tail)) "birthDate" = 4 + mid.length := by
  have hmidF : ∀ tgt : String, tgt ≠ "name" → ∀ x ∈ mid,
      ((fun c => elemName c == tgt) x) = false := by
    intro tgt ht x hx
    simp only [hmid x hx]
    exact beq_eq_false_iff_ne.mpr (fun hh => ht hh.symm)
  refine ⟨?_, ?_, ?_, ?_, ?_⟩
  · simp +decide [fieldPos, List.findIdx_cons, e1]
  · simp +decide [fieldPos, List.findIdx_cons, e1, e2]
  · simp +decide [fieldPos, List.findIdx_cons, e1, e2, e3]
  · simp +decide only [fieldPos, List.findIdx_cons, e1, e2, e3, cond_false]
    rw [findIdx_append_none _ _ _ (hmidF "gender" (by decide))]
    simp +decide [List.findIdx_cons, e4]
    omega
  · simp +decide only [fieldPos, List.findIdx_cons, e1, e2, e3, cond_false]
    rw [findIdx_append_none _ _ _ (hmidF "birthDate" (by decide))]
    simp +decide [List.findIdx_cons, e4, e5]
    omega

/-- C4: encoded XML child elements appear strictly in the catalog's
canonical field order — for Patient's fields id, active, name, gender,
birthDate (catalog order), whenever all are present the output positions
are strictly increasing. -/
theorem xml_element_order (p : Patient)
    (h1 : p.id.isSome = true) (h2 : p.active.isSome = true) (h3 : p.name ≠ [])
    (h4 : p.gender.isSome = true) (h5 : p.birthDate.isSome = true) :
    fieldPos p.toXmlChildren "id" < fieldPos p.toXmlChildren "active" ∧
    fieldPos p.toXmlChildren "active" < fieldPos p.toXmlChildren "name" ∧
    fieldPos p.toXmlChildren "name" < fieldPos p.toXmlChildren "gender" ∧
    fieldPos p.toXmlChildren "gender" < fieldPos p.toXmlChildren "birthDate" := by
  obtain ⟨i, hi⟩ := Option.isSome_iff_exists.mp h1
  obtain ⟨a, ha⟩ := Option.isSome_iff_exists.mp h2
  obtain ⟨n, rest, hn⟩ := List.exists_cons_of_ne_nil h3
  obtain ⟨g, hg⟩ := Option.isSome_iff_exists.mp h4
  obtain ⟨b, hb⟩ := Option.isSome_iff_exists.mp h5
  have hch : p.toXmlChildren
      = xmlEncodePrimitive "id" i none :: xmlEncodePrimitive "active" (boolText a) none
        :: encodeHumanName n :: (rest.map encodeHumanName
          ++ (xmlEncodePrimitive "gender" g none
            :: xmlEncodePrimitive "birthDate" b p.birthDateExt
            :: optPrimBool "deceasedBoolean" p.deceasedBoolean)) := by
    simp [Patient.toXmlChildren, hi, ha, hn, hg, hb, optPrimStr, optPrimBool, optPrimStrExt]
  have hmid : ∀ x ∈ rest.map encodeHumanName, elemName x = "name" := by
    intro x hx
    obtain ⟨y, _, rfl⟩ := List.mem_map.mp hx
    rfl
  have hc := fieldPos_patient_shape
    (xmlEncodePrimitive "id" i none) (xmlEncodePrimitive "active" (boolText a) none)
    (encodeHumanName n) (xmlEncodePrimitive "gender" g none)
    (xmlEncodePrimitive "birthDate" b p.birthDateExt)
    (rest.map encodeHumanName) (optPrimBool "deceasedBoolean" p.deceasedBoolean)
    (elemName_xmlEncodePrimitive _ _ _) (elemName_xmlEncodePrimitive _ _ _) rfl
    (elemName_xmlEncodePrimitive _ _ _) (elemName_xmlEncodePrimitive _ _ _) hmid
  rw [hch]
  obtain ⟨c1, c2, c3, c4, c5⟩ := hc
  rw [c1, c2, c3, c4, c5]
  omega

/-- Witness for C4 at the source test's patient (all five fields
present). -/
theorem xml_element_order_witness :
    ((⟨some "order-test", some true, [⟨some "Test", []⟩], some "female",
        some "1990-01-01", none, none⟩ : Patient).id.isSome = true) ∧
    (fieldPos (⟨some "order-test", some true, [⟨some "Test", []⟩], some "female",
        some "1990-01-01", none, none⟩ : Patient).toXmlChildren "id"
      < fieldPos (⟨some "order-test", some true, [⟨some "Test", []⟩], some "female",
        some "1990-01-01", none, none⟩ : Patient).toXmlChildren "active") ∧
    (fieldPos (⟨some "order-test", some true, [⟨some "Test", []⟩], some "female",
        some "1990-01-01", none, none⟩ : Patient).toXmlChildren "active"
      < fieldPos (⟨some "order-test", some true, [⟨some "Test", []⟩], some "female",
        some "1990-01-01", none, none⟩ : Patient).toXmlChildren "name") ∧
    (fieldPos (⟨some "order-test", some true, [⟨some "Test", []⟩], some "female",
        some "1990-01-01", none, none⟩ : Patient).toXmlChildren "name"
      < fieldPos (⟨some "order-test", some true, [⟨some "Test", []⟩], some "female",
        some "1990-01-01", none, none⟩ : Patient).toXmlChildren "gender") ∧
    (fieldPos (⟨some "order-test", some true, [⟨some "Test", []⟩], some "female",
        some "1990-01-01", none, none⟩ : Patient).toXmlChildren "gender"
      < fieldPos (⟨some "order-test", some true, [⟨some "Test", []⟩], some "female",
        some "1990-01-01", none, none⟩ : Patient).toXmlChildren "birthDate") := by
  have h := xml_element_order
    ⟨some "order-test", some true, [⟨some "Test", []⟩], some "female",
      some "1990-01-01", none, none⟩ rfl rfl (by simp) rfl rfl
  exact ⟨rfl, h.1, h.2.1, h.2.2.1, h.2.2.2⟩

/-! ## Resources, registry, and polymorphic decoding -/

/-- An organization resource, with the fields the tests exercise. -/
structure Organization where
  id : Option String
  name : Option String
deriving Repr, DecidableEq

/-- A quantity datatype: a precision-preserving decimal value with unit
metadata. -/
structure Quantity where
  value : Option Decimal
  unit : Option String
  system : Option String
  code : Option String
deriving Repr, DecidableEq

/-- An observation resource, with the fields the tests exercise (the
`value[x]` choice is represented by its quantity variant). -/
structure Observation where
  id : Option String
  status : Option String
  valueQuantity : Option Quantity
deriving Repr, DecidableEq

/-- Modelled from the spec: the closed set of concrete resource variants
behind the shared Resource capability. -/
inductive Resource where
  | patient (p : Patient)
  | organization (o : Organization)
  | observation (o : Observation)
deriving Repr, DecidableEq

/-- The shared capability: a resource reports its own type name
(`GetResourceType`). -/
def Resource.getResourceType : Resource → String
  | .patient _ => "Patient"
  | .organization _ => "Organization"
  | .observation _ => "Observation"

/-- Quantity fields in catalog order; the decimal value emits its
preserved digit text as the `value` attribute. -/
def Quantity.toXmlChildren (q : Quantity) : List XmlNode :=
  (match q.value with
   | some d => [xmlEncodePrimitive "value" d.text none]
   | none => [])
  ++ optPrimStr "unit" q.unit ++ optPrimStr "system" q.system ++ optPrimStr "code" q.code

/-- Organization fields in catalog order. -/
def Organization.toXmlChildren (o : Organization) : List XmlNode :=
  optPrimStr "id" o.id ++ optPrimStr "name" o.name

/-- Observation fields in catalog order; `valueQuantity` is a composite
child element. -/
def Observation.toXmlChildren (o : Observation) : List XmlNode :=
  optPrimStr "id" o.id ++ optPrimStr "status" o.status
    ++ (match o.valueQuantity with
        | some q => [XmlNode.elem "valueQuantity" [] q.toXmlChildren]
        | none => [])

/-- Dispatch of field encoding over the concrete variant. -/
def Resource.toXmlChildren : Resource → List XmlNode
  | .patient p => p.toXmlChildren
  | .organization o => o.toXmlChildren
  | .observation o => o.toXmlChildren

/-- Modelled from the spec: a resource encodes as an element named by its
reported type (the namespace attribute appears only at the document
root). -/
def Resource.toXml (r : Resource) : XmlNode :=
  .elem r.getResourceType [] r.toXmlChildren

/-- Modelled from the spec: a polymorphic `contained` slot wraps the
concrete resource's own element inside the slot's container element. -/
def encodeContained (r : Resource) : XmlNode :=
  .elem "contained" [] [r.toXml]

/-- Modelled from the spec: decode error kinds — `UnknownType` carries the
offending name verbatim. -/
inductive DecodeError where
  | unknownType (name : String)
  | malformedInput
deriving Repr, DecidableEq

/-- Zero-value Patient, as the registry factory produces. -/
def Patient.empty : Patient := ⟨none, none, [], none, none, none, none⟩

/-- Zero-value Organization. -/
def Organization.empty : Organization := ⟨none, none⟩

/-- Zero-value Observation. -/
def Observation.empty : Observation := ⟨none, none, none⟩

/-- Modelled from the spec: the Resource Registry's `construct` — a
read-only name-to-factory lookup, failing with `UnknownType(name)` when
the name is unregistered. -/
def registryConstruct (name : String) : Except DecodeError Resource :=
  if name = "Patient" then .ok (.patient Patient.empty)
  else if name = "Organization" then .ok (.organization Organization.empty)
  else if name = "Observation" then .ok (.observation Observation.empty)
  else .error (.unknownType name)

/-- First child element with the given tag name. -/
def findElem (children : List XmlNode) (name : String) : Option XmlNode :=
  children.find? (fun c => elemName c == name)

/-- Attribute lookup on an element node. -/
def attrOf (n : XmlNode) (k : String) : Option String :=
  match n with
  | .elem _ attrs _ => (attrs.find? (fun a => a.1 == k)).map Prod.snd
  | .raw _ => none

/-- The `value` attribute of the named primitive child, when present. -/
def primValueOf (children : List XmlNode) (name : String) : Option String :=
  (findElem children name).bind (fun n => attrOf n "value")

/-- Wire text of booleans, decoded. -/
def parseBool : String → Option Bool
  | "true" => some true
  | "false" => some false
  | _ => none

/-- Decode an `extension` element: url attribute plus value child. -/
def decodeExtension (n : XmlNode) : Extension :=
  ⟨(attrOf n "url").getD "",
   match n with
   | .elem _ _ ch => primValueOf ch "valueString"
   | .raw _ => none⟩

/-- Collect a primitive's companion (id child and extension children) from
its element, if any companion data exists. -/
def decodeCompanion (n : Option XmlNode) : Option Element :=
  match n with
  | some (.elem _ _ ch) =>
      let exts := (ch.filter (fun c => elemName c == "extension")).map decodeExtension
      let cid := primValueOf ch "id"
      if cid.isNone && exts.isEmpty then none else some ⟨cid, exts⟩
  | _ => none

/-- Decode a `name` composite element. -/
def decodeHumanName (n : XmlNode) : HumanName :=
  match n with
  | .elem _ _ ch =>
      ⟨primValueOf ch "family",
       (ch.filter (fun c => elemName c == "given")).filterMap (fun c => attrOf c "value")⟩
  | .raw _ => ⟨none, []⟩

/-- Decode Patient fields from the element's children. -/
def Patient.decodeXml (children : List XmlNode) : Patient :=
  ⟨primValueOf children "id",
   (primValueOf children "active").bind parseBool,
   (children.filter (fun c => elemName c == "name")).map decodeHumanName,
   primValueOf children "gender",
   primValueOf children "birthDate",
   decodeCompanion (findElem children "birthDate"),
   (primValueOf children "deceasedBoolean").bind parseBool⟩

/-- Decode Organization fields from the element's children. -/
def Organization.decodeXml (children : List XmlNode) : Organization :=
  ⟨primValueOf children "id", primValueOf children "name"⟩

/-- Decode a decimal-valued primitive child, preserving the raw attribute
text through the decimal parser. -/
def decodeDecimalAttr (children : List XmlNode) (name : String) :
    Except DecodeError (Option Decimal) :=
  match primValueOf children name with
  | none => .ok none
  | some raw =>
      match NewDecimalFromString raw with
      | .ok d => .ok (some d)
      | .error _ => .error .malformedInput

/-- Decode Quantity fields from the element's children. -/
def Quantity.decodeXml (children : List XmlNode) : Except DecodeError Quantity :=
  match decodeDecimalAttr children "value" with
  | .error e => .error e
  | .ok v => .ok ⟨v, primValueOf children "unit", primValueOf children "system",
      primValueOf children "code"⟩

/-- Decode Observation fields from the element's children. -/
def Observation.decodeXml (children : List XmlNode) : Except DecodeError Observation :=
  match findElem children "valueQuantity" with
  | some (XmlNode.elem _ _ qch) =>
      match Quantity.decodeXml qch with
      | .error e => .error e
      | .ok q => .ok ⟨primValueOf children "id", primValueOf children "status", some q⟩
  | _ => .ok ⟨primValueOf children "id", primValueOf children "status", none⟩

/-- Modelled from the spec: decoding a resource element — the element's
own tag name keys the Registry to select the concrete variant, whose
fields are then populated from the children. -/
def decodeResourceNode : XmlNode → Except DecodeError Resource
  | .elem tag _ children =>
      match registryConstruct tag with
      | .error e => .error e
      | .ok (.patient _) => .ok (.patient (Patient.decodeXml children))
      | .ok (.organization _) => .ok (.organization (Organization.decodeXml children))
      | .ok (.observation _) => (Observation.decodeXml children).map .observation
  | .raw _ => .error .malformedInput

/-- Modelled from the spec: `UnmarshalResourceXML` decodes the document's
root element. -/
def UnmarshalResourceXML (root : XmlNode) : Except DecodeError Resource :=
  decodeResourceNode root

/-- Modelled from the spec: decoding a polymorphic slot — the inner
element's tag selects the concrete variant via the Registry. -/
def decodeContained : XmlNode → Except DecodeError Resource
  | .elem _ _ (inner :: _) => decodeResourceNode inner
  | _ => .error .malformedInput

/-- C7: decoding an input whose root element names a resource type absent
from the Registry fails with `UnknownType` carrying the offending name
verbatim, never silently succeeding. -/
theorem unknown_type_decode_error (name : String) (attrs : List (String × String))
    (children : List XmlNode)
    (h : name ≠ "Patient" ∧ name ≠ "Organization" ∧ name ≠ "Observation") :
    UnmarshalResourceXML (.elem name attrs children) = .error (.unknownType name) := by
  obtain ⟨h1, h2, h3⟩ := h
  simp [UnmarshalResourceXML, decodeResourceNode, registryConstruct, h1, h2, h3]

/-- Witness for C7 at the source test's `UnknownResource` document. -/
theorem unknown_type_decode_error_witness :
    ("UnknownResource" ≠ "Patient" ∧ "UnknownResource" ≠ "Organization" ∧
      "UnknownResource" ≠ "Observation") ∧
    UnmarshalResourceXML
        (.elem "UnknownResource" [("xmlns", "http://hl7.org/fhir")]
          [xmlEncodePrimitive "id" "test" none])
      = .error (.unknownType "UnknownResource") :=
  ⟨by simp, unknown_type_decode_error "UnknownResource" [("xmlns", "http://hl7.org/fhir")]
    [xmlEncodePrimitive "id" "test" none] (by simp)⟩

theorem findElem_optPrimStr (nm tgt : String) (v : Option String) (l : List XmlNode)
    (h : (nm == tgt) = false) :
    findElem (optPrimStr nm v ++ l) tgt = findElem l tgt := by
  cases v with
  | none => rfl
  | some s =>
      simp [optPrimStr, findElem, List.find?_cons, xmlEncodePrimitive, elemName, h]

theorem findElem_optPrimStr_nil (nm tgt : String) (v : Option String)
    (h : (nm == tgt) = false) :
    findElem (optPrimStr nm v) tgt = none := by
  cases v with
  | none => rfl
  | some s =>
      simp [optPrimStr, findElem, List.find?_cons, xmlEncodePrimitive, elemName, h]

/-- Whether every decimal inside the resource still carries parseable
digit text (true of anything built by the parser; the zero value a JSON
`null` produces is the lone exception). -/
def Resource.wellFormedDecimals : Resource → Prop
  | .observation o =>
      match o.valueQuantity with
      | some q =>
          match q.value with
          | some d => ∃ d2 : Decimal, NewDecimalFromString d.text = .ok d2
          | none => True
      | none => True
  | _ => True

theorem quantity_decodeXml_ok (q : Quantity)
    (h : match q.value with
         | some d => ∃ d2 : Decimal, NewDecimalFromString d.text = .ok d2
         | none => True) :
    ∃ q2, Quantity.decodeXml q.toXmlChildren = .ok q2 := by
  obtain ⟨v, u, sy, c⟩ := q
  unfold Quantity.toXmlChildren Quantity.decodeXml decodeDecimalAttr primValueOf
  cases v with
  | none =>
      simp only [List.nil_append, List.append_assoc]
      rw [findElem_optPrimStr "unit" "value" u _ (by decide),
        findElem_optPrimStr "system" "value" sy _ (by decide),
        findElem_optPrimStr_nil "code" "value" c (by decide)]
      exact ⟨_, rfl⟩
  | some d =>
      obtain ⟨d2, hd2⟩ := h
      simp only [List.append_assoc]
      rw [show findElem ([xmlEncodePrimitive "value" d.text none] ++ (optPrimStr "unit" u
          ++ (optPrimStr "system" sy ++ optPrimStr "code" c))) "value"
        = some (xmlEncodePrimitive "value" d.text none) from rfl]
      rw [show (some (xmlEncodePrimitive "value" d.text none)).bind
          (fun n => attrOf n "value") = some d.text from rfl]
      simp only [hd2]
      exact ⟨_, rfl⟩

theorem observation_decodeXml_ok (o : Observation)
    (h : match o.valueQuantity with
         | some q =>
             match q.value with
             | some d => ∃ d2 : Decimal, NewDecimalFromString d.text = .ok d2
             | none => True
         | none => True) :
    ∃ o2, Observation.decodeXml o.toXmlChildren = .ok o2 := by
  obtain ⟨oid, ost, vq⟩ := o
  unfold Observation.toXmlChildren Observation.decodeXml
  cases vq with
  | none =>
      simp only [List.append_nil]
      rw [findElem_optPrimStr "id" "valueQuantity" oid _ (by decide),
        findElem_optPrimStr_nil "status" "valueQuantity" ost (by decide)]
      exact ⟨_, rfl⟩
  | some q =>
      simp only [List.append_assoc]
      rw [findElem_optPrimStr "id" "valueQuantity" oid _ (by decide),
        findElem_optPrimStr "status" "valueQuantity" ost _ (by decide)]
      rw [show findElem [XmlNode.elem "valueQuantity" [] q.toXmlChildren] "valueQuantity"
          = some (XmlNode.elem "valueQuantity" [] q.toXmlChildren) from rfl]
      obtain ⟨q2, hq2⟩ := quantity_decodeXml_ok q h
      simp only [hq2]
      exact ⟨_, rfl⟩

/-- C6: a polymorphic slot holding a concrete variant X encodes by
wrapping X's own element — named by its reported type — inside the slot's
container element, and decoding the encoded container yields a value whose
reported resource-type name equals X's. -/
theorem polymorphic_slot_roundtrip (r : Resource) (h : r.wellFormedDecimals) :
    (encodeContained r
       = .elem "contained" [] [.elem r.getResourceType [] r.toXmlChildren]) ∧
    ((decodeContained (encodeContained r)).map Resource.getResourceType
       = .ok r.getResourceType) := by
  refine ⟨rfl, ?_⟩
  cases r with
  | patient p => rfl
  | organization o => rfl
  | observation o =>
      show (decodeResourceNode (.elem "Observation" [] o.toXmlChildren)).map
        Resource.getResourceType = .ok "Observation"
      obtain ⟨o2, ho2⟩ := observation_decodeXml_ok o h
      simp [decodeResourceNode, registryConstruct, ho2, Resource.getResourceType,
        Except.map]

/-- Witness for C6 at the source test's observation (decimal value
`120.50` inside a quantity slot). -/
theorem polymorphic_slot_roundtrip_witness :
    (Resource.observation ⟨some "obs", some "final",
        some ⟨some (MustDecimal "120.50"), some "mmHg", none, none⟩⟩).wellFormedDecimals ∧
    ((decodeContained (encodeContained (.observation ⟨some "obs", some "final",
          some ⟨some (MustDecimal "120.50"), some "mmHg", none, none⟩⟩))).map
        Resource.getResourceType = .ok "Observation") := by
  refine ⟨⟨MustDecimal "120.50", rfl⟩, ?_⟩
  exact (polymorphic_slot_roundtrip
    (.observation ⟨some "obs", some "final",
      some ⟨some (MustDecimal "120.50"), some "mmHg", none, none⟩⟩)
    ⟨MustDecimal "120.50", rfl⟩).2

/-! ## JSON document model and decimal precision -/

/-- The JSON value tree the codec reads and writes; number tokens keep
their raw digit text, matching the decoder's access to the raw token. -/
inductive Json where
  | num (raw : String)
  | str (s : String)
  | obj (fields : List (String × Json))
  | jnull
deriving Repr

/-- Absent optional string fields are omitted from the object. -/
def optStrField (name : String) : Option String → List (String × Json)
  | none => []
  | some v => [(name, Json.str v)]

/-- Modelled from the spec: JSON encoding of a Quantity — absent fields
omitted, the decimal emitted as a bare number token carrying its preserved
digit text. -/
def Quantity.toJson (q : Quantity) : Json :=
  .obj ((match q.value with
         | some d => [("value", Json.num d.marshalJSON)]
         | none => [])
    ++ optStrField "unit" q.unit ++ optStrField "system" q.system
    ++ optStrField "code" q.code)

/-- Field lookup in a JSON object. -/
def jsonField : Json → String → Option Json
  | .obj fields, k => (fields.find? (fun f => f.1 == k)).map Prod.snd
  | _, _ => none

/-- String-typed field view. -/
def jsonStr? : Option Json → Option String
  | some (.str s) => some s
  | _ => none

/-- Modelled from the spec: decimal fields decode from a bare number token
or a quoted string, always preserving the original digit text from the raw
token; `null` yields the zero decimal. -/
def decodeDecimalJson : Option Json → Except DecodeError (Option Decimal)
  | none => .ok none
  | some (.num raw) =>
      match NewDecimalFromString raw with
      | .ok d => .ok (some d)
      | .error _ => .error .malformedInput
  | some (.str raw) =>
      match NewDecimalFromString raw with
      | .ok d => .ok (some d)
      | .error _ => .error .malformedInput
  | some .jnull => .ok (some ⟨0, 0, ""⟩)
  | some (.obj _) => .error .malformedInput

/-- Modelled from the spec: JSON decoding of a Quantity by wire name. -/
def Quantity.fromJson (j : Json) : Except DecodeError Quantity :=
  match j with
  | .obj _ =>
      match decodeDecimalJson (jsonField j "value") with
      | .error e => .error e
      | .ok v => .ok ⟨v, jsonStr? (jsonField j "unit"), jsonStr? (jsonField j "system"),
          jsonStr? (jsonField j "code")⟩
  | _ => .error .malformedInput

theorem text_of_parse (s : String) (d : Decimal) (h : NewDecimalFromString s = .ok d) :
    d.text = s := by
  unfold NewDecimalFromString at h
  by_cases hd : s.data.head? = some '-'
  · rw [if_pos hd] at h
    cases hp : parseMag s.data.tail with
    | none => rw [hp] at h; cases h
    | some p => rw [hp] at h; injection h with h2; subst h2; rfl
  · rw [if_neg hd] at h
    cases hp : parseMag s.data with
    | none => rw [hp] at h; cases h
    | some p => rw [hp] at h; injection h with h2; subst h2; rfl

theorem findElem_cons_self (nm : String) (attrs : List (String × String))
    (ch l : List XmlNode) :
    findElem (XmlNode.elem nm attrs ch :: l) nm = some (.elem nm attrs ch) := by
  simp [findElem, List.find?_cons, elemName]

/-- C2: a resource carrying a decimal-valued field whose `Decimal` was
parsed from text `t` still renders exactly `t` after an encode/decode
cycle, both through JSON (Quantity) and through XML (Observation with a
quantity value). -/
theorem decimal_precision_through_resource (t : String) (d : Decimal)
    (u sy c oid ost : Option String) (hd : NewDecimalFromString t = .ok d) :
    ((Quantity.fromJson (Quantity.toJson ⟨some d, u, sy, c⟩)).map
        (fun q => q.value.map Decimal.render) = .ok (some t)) ∧
    ((Observation.decodeXml (Observation.toXmlChildren ⟨oid, ost,
          some ⟨some d, u, sy, c⟩⟩)).map
        (fun o => o.valueQuantity.bind (fun q => q.value.map Decimal.render))
      = .ok (some t)) := by
  have ht : d.text = t := text_of_parse t d hd
  have hd' : NewDecimalFromString d.text = .ok d := by rw [ht]; exact hd
  constructor
  · simp +decide [Quantity.toJson, Quantity.fromJson, jsonField, decodeDecimalJson,
      optStrField, List.find?_cons, hd, hd', Decimal.marshalJSON, Decimal.render, Except.map,
      ht]
  · simp +decide [Observation.toXmlChildren, Observation.decodeXml, Quantity.toXmlChildren,
      Quantity.decodeXml, decodeDecimalAttr, primValueOf, findElem_optPrimStr,
      findElem_cons_self, attrOf, xmlEncodePrimitive, List.find?_cons, List.append_assoc,
      hd, hd', Except.map, Decimal.render, ht]

/-- Witness for C2 at the source test's `120.50` decimal. -/
theorem decimal_precision_through_resource_witness :
    (NewDecimalFromString "120.50" = .ok (MustDecimal "120.50")) ∧
    ((Quantity.fromJson (Quantity.toJson ⟨some (MustDecimal "120.50"), some "mmHg",
          none, none⟩)).map
        (fun q => q.value.map Decimal.render) = .ok (some "120.50")) ∧
    ((Observation.decodeXml (Observation.toXmlChildren ⟨some "obs-1", some "final",
          some ⟨some (MustDecimal "120.50"), some "mmHg", none, none⟩⟩)).map
        (fun o => o.valueQuantity.bind (fun q => q.value.map Decimal.render))
      = .ok (some "120.50")) := by
  have h := decimal_precision_through_resource "120.50" (MustDecimal "120.50")
    (some "mmHg") none none (some "obs-1") (some "final") rfl
  exact ⟨rfl, h.1, h.2⟩

/-! ## JSON string escaping — src/r5/marshal.go with SetEscapeHTML(false) -/

/-- Lower-case hex digit, as Go's JSON encoder emits. -/
def hexDigit (n : Nat) : Char :=
  if n < 10 then Char.ofNat (48 + n) else Char.ofNat (87 + n)

/-- Two-digit hex rendering of a byte value. -/
def hexByte (n : Nat) : String :=
  String.mk [hexDigit (n / 16 % 16), hexDigit (n % 16)]

/-- Embedded from src/r5/marshal.go and the encoding/json encoder it
configures: whether a character passes through a JSON string unescaped.
With `escapeHTML` set, `<`, `>` and `&` are additionally escaped; control
characters, the quote, the backslash, and U+2028/U+2029 always are. -/
def jsonSafeChar (escapeHTML : Bool) (c : Char) : Bool :=
  decide (0x20 ≤ c.toNat) && c != '"' && c != '\\'
    && c.toNat != 0x2028 && c.toNat != 0x2029
    && (!escapeHTML || (c != '<' && c != '>' && c != '&'))

/-- Embedded from encoding/json's string writer: one character's encoding
inside a JSON string literal. -/
def jsonEscapeChar (escapeHTML : Bool) (c : Char) : String :=
  if jsonSafeChar escapeHTML c then String.mk [c]
  else if c = '\\' then "\\\\"
  else if c = '"' then "\\\""
  else if c = '\n' then "\\n"
  else if c = '\r' then "\\r"
  else if c = '\t' then "\\t"
  else if c.toNat = 0x2028 then "\\u2028"
  else if c.toNat = 0x2029 then "\\u2029"
  else "\\u00" ++ hexByte c.toNat

/-- Concatenation of per-character encodings. -/
def concatMapStr (f : Char → String) : List Char → String
  | [] => ""
  | c :: cs => f c ++ concatMapStr f cs

/-- A JSON string literal for `s` under the given escaping mode. -/
def jsonEncodeString (escapeHTML : Bool) (s : String) : String :=
  "\"" ++ concatMapStr (jsonEscapeChar escapeHTML) s.data ++ "\""

/-- Embedded from src/r5/marshal.go: `Marshal` encodes through a JSON
encoder with `SetEscapeHTML(false)`, so a narrative `div` field's string
content is written by the non-HTML-escaping string encoder. -/
def marshalNarrativeDiv (divContent : String) : String :=
  "\x7b\"div\":" ++ jsonEncodeString false divContent ++ "\x7d"

/-- Does `needle` occur as a leading run of `hay`? -/
def startsWithChars : List Char → List Char → Bool
  | [], _ => true
  | _ :: _, [] => false
  | n :: ns, h :: hs => n == h && startsWithChars ns hs

/-- Does `needle` occur anywhere in the haystack? -/
def containsChars (needle : List Char) : List Char → Bool
  | [] => needle.isEmpty
  | h :: hs => startsWithChars needle (h :: hs) || containsChars needle hs

/-- Substring occurrence on strings. -/
def strContains (hay needle : String) : Bool := containsChars needle.data hay.data

theorem concatMapStr_safe (l : List Char) (h : ∀ ch ∈ l, jsonSafeChar false ch = true) :
    concatMapStr (jsonEscapeChar false) l = String.mk l := by
  induction l with
  | nil => rfl
  | cons ch t ih =>
      have hch := h ch (List.mem_cons_self ch t)
      have ht := ih (fun x hx => h x (List.mem_cons_of_mem ch hx))
      show jsonEscapeChar false ch ++ concatMapStr (jsonEscapeChar false) t = _
      rw [ht]
      unfold jsonEscapeChar
      rw [if_pos hch]
      exact rfl

/-- C5: with HTML escaping disabled — as `Marshal` configures the encoder —
markup-bearing string content passes through with `<`, `>`, `&` kept
literally and no `<`/`>` sequences produced, while standard JSON
escaping of quotes and control characters still applies. -/
theorem json_no_html_escape (s : String)
    (h : ∀ ch ∈ s.data, jsonSafeChar false ch = true) :
    (jsonEncodeString false s = "\"" ++ s ++ "\"") ∧
    (marshalNarrativeDiv s = "\x7b\"div\":\"" ++ s ++ "\"\x7d") ∧
    (jsonEscapeChar false '<' = "<") ∧
    (jsonEscapeChar false '>' = ">") ∧
    (jsonEscapeChar false '&' = "&") ∧
    (jsonEscapeChar true '<' = "\\u003c") ∧
    (jsonEscapeChar true '>' = "\\u003e") ∧
    (jsonEscapeChar false '"' = "\\\"") ∧
    (jsonEscapeChar false (Char.ofNat 10) = "\\n") := by
  have henc : jsonEncodeString false s = "\"" ++ s ++ "\"" := by
    unfold jsonEncodeString
    rw [concatMapStr_safe s.data h]
  refine ⟨henc, ?_, by decide, by decide, by decide, by decide, by decide, by decide,
    by decide⟩
  unfold marshalNarrativeDiv
  rw [henc]
  simp only [String.append_assoc]
  rw [show ("\"" ++ "\x7d" : String) = "\"\x7d" from rfl]
  rw [← String.append_assoc "\x7b\"div\":" "\"" (s ++ "\"\x7d")]
  rw [show ("\x7b\"div\":" ++ "\"" : String) = "\x7b\"div\":\"" from rfl]

/-- Witness for C5 at the spec's `<div><b>bold</b></div>` example. -/
theorem json_no_html_escape_witness :
    (∀ ch ∈ ("<div><b>bold</b></div>" : String).data, jsonSafeChar false ch = true) ∧
    (jsonEncodeString false "<div><b>bold</b></div>" = "\"<div><b>bold</b></div>\"") ∧
    (strContains (marshalNarrativeDiv "<div><b>bold</b></div>") "<b>bold</b>" = true) ∧
    (strContains (marshalNarrativeDiv "<div><b>bold</b></div>") "\\u003c" = false) ∧
    (strContains (marshalNarrativeDiv "<div><b>bold</b></div>") "\\u003e" = false) := by
  refine ⟨by decide, ?_, by decide, by decide, by decide⟩
  exact (json_no_html_escape "<div><b>bold</b></div>" (by decide)).1

end GoFhir
